import Mathlib

/-!
Verification of the go2scope BigTIFF storage engine
(`src/DeviceAdapters/go2scope/G2SBigTiffDataset.cpp`,
`src/DeviceAdapters/go2scope/G2SBigTiffStorage.cpp`,
`src/Tests/G2SStorageTest/Util.cpp`).

The C++ operations are embedded shallowly: machine `uint32_t` arithmetic is
`Nat` reduced modulo `2^32` at every operation, fallible methods (those that
`throw` or return an error status code) return `Option`/a status value, and
the mutable service/dataset objects become explicit state records.
-/

namespace G2S

/-! ## Coordinate → index algebra (`G2SBigTiffDataset::calcImageIndex`)

`calcImageIndex` works on `std::uint32_t` shape entries and coordinates; all
arithmetic wraps modulo `2^32`.  The dataset `shape` vector carries the index
axes first and the two pixel axes (height, width) last. -/

/-- `uint32_t` reduction: every arithmetic step of the C++ code is a 32-bit
unsigned operation. -/
def u32 (x : ℕ) : ℕ := x % 4294967296

/-- The inner loop of `calcImageIndex`
(`std::uint32_t sum = 1; for(j = i+1; j < shape.size()-2; j++) sum *= shape[j];`):
the product of the remaining index-axis sizes, one `uint32_t` multiplication
per step.  The list argument is the tail of the index-axis list after
position `i`. -/
def prodLoop (acc : ℕ) : List ℕ → ℕ
  | [] => acc
  | a :: as => prodLoop (u32 (acc * a)) as

/-- `sum` accumulator of the stride loop, started at `1` as in the source. -/
def prod32 (as : List ℕ) : ℕ := prodLoop 1 as

/-- The outer loop of `calcImageIndex`
(`ind += sum * coord[i]`, a `uint32_t` accumulation; the `if(coord[i]==0)
continue;` shortcut of the source adds `0` and is arithmetically absorbed).
The first list is the index-axis part of the shape, the second the
coordinate vector. -/
def idxLoop (ind : ℕ) : List ℕ → List ℕ → ℕ
  | _, [] => ind
  | [], _ :: _ => ind
  | _ :: as, c :: cs => idxLoop (u32 (ind + u32 (prod32 as * c))) as cs

/-- The range-validation loop of `calcImageIndex`:
`for(i = 1; i < coord.size(); i++) if(coord[i] >= shape[i]) throw ...`. -/
def rangeErrB (shape coord : List ℕ) : Bool :=
  (List.range coord.length).any fun i =>
    decide (1 ≤ i) && decide (shape.getD i 0 ≤ coord.getD i 0)

/-- `G2SBigTiffDataset::calcImageIndex` (G2SBigTiffDataset.cpp:595-620).
Throws (`none`) when more coordinates than index axes are supplied or when a
non-leading coordinate is out of range; otherwise returns the accumulated
`uint32_t` index.  The leading coordinate is deliberately not range-checked
("First image coordinate can go beyond the specified shape size"). -/
def calcImageIndex (shape coord : List ℕ) : Option ℕ :=
  if shape.length - 2 < coord.length then none
  else if rangeErrB shape coord then none
  else some (idxLoop 0 (shape.take (shape.length - 2)) coord)

/-- Exact (unbounded) row-major index: `Σᵢ cᵢ · Πⱼ>ᵢ aⱼ`, in recursive form. -/
def linIndex : List ℕ → List ℕ → ℕ
  | _, [] => 0
  | [], _ :: _ => 0
  | _ :: as, c :: cs => c * as.prod + linIndex as cs

/-- The row-major index exactly as the specification writes it:
the sum over `i` of `cᵢ` times the product of the axis sizes after `i`. -/
def specIndex (A c : List ℕ) : ℕ :=
  ∑ i ∈ Finset.range c.length, c.getD i 0 * ((A.drop (i + 1)).prod)

theorem linIndex_eq_specIndex (A c : List ℕ) (h : c.length ≤ A.length) :
    linIndex A c = specIndex A c := by
  induction A generalizing c with
  | nil =>
    rw [List.length_nil, Nat.le_zero, List.length_eq_zero] at h
    subst h
    simp [linIndex, specIndex]
  | cons a as ih =>
    cases c with
    | nil => simp [linIndex, specIndex]
    | cons x cs =>
      rw [linIndex, ih cs (by simpa using h)]
      unfold specIndex
      rw [List.length_cons, Finset.sum_range_succ']
      simp only [List.getD_cons_succ, List.getD_cons_zero, List.drop_succ_cons,
        List.drop_zero]
      omega

/-- Transfer modular equalities through `ZMod`. -/
theorem mod_eq_of_zmod (M a b : ℕ) (h : (a : ZMod M) = b) : a % M = b % M :=
  (ZMod.natCast_eq_natCast_iff' a b M).mp h

theorem prodLoop_eq (as : List ℕ) : ∀ acc, acc < 4294967296 →
    prodLoop acc as = acc * as.prod % 4294967296 := by
  induction as with
  | nil =>
    intro acc hacc
    simpa [prodLoop] using (Nat.mod_eq_of_lt hacc).symm
  | cons a as ih =>
    intro acc hacc
    simp only [prodLoop, u32]
    rw [ih _ (Nat.mod_lt _ (by norm_num)), List.prod_cons]
    exact mod_eq_of_zmod _ _ _ (by push_cast [ZMod.natCast_mod]; ring)

theorem prod32_eq (as : List ℕ) : prod32 as = as.prod % 4294967296 := by
  rw [prod32, prodLoop_eq as 1 (by norm_num), one_mul]

theorem idxLoop_eq (as : List ℕ) : ∀ cs ind, ind < 4294967296 →
    idxLoop ind as cs = (ind + linIndex as cs) % 4294967296 := by
  induction as with
  | nil =>
    intro cs ind hind
    cases cs with
    | nil => simpa [idxLoop, linIndex] using (Nat.mod_eq_of_lt hind).symm
    | cons c cs => simpa [idxLoop, linIndex] using (Nat.mod_eq_of_lt hind).symm
  | cons a as ih =>
    intro cs ind hind
    cases cs with
    | nil => simpa [idxLoop, linIndex] using (Nat.mod_eq_of_lt hind).symm
    | cons c cs =>
      simp only [idxLoop, linIndex, u32, prod32_eq]
      rw [ih cs _ (Nat.mod_lt _ (by norm_num))]
      exact mod_eq_of_zmod _ _ _ (by push_cast [ZMod.natCast_mod]; ring)

theorem idxLoop_zero (as cs : List ℕ) :
    idxLoop 0 as cs = linIndex as cs % 4294967296 := by
  simpa using idxLoop_eq as cs 0 (by norm_num)

theorem rangeErrB_eq_false (shape cs : List ℕ)
    (h : ∀ i, 1 ≤ i → i < cs.length → cs.getD i 0 < shape.getD i 0) :
    rangeErrB shape cs = false := by
  rw [rangeErrB, List.any_eq_false]
  intro i hi
  simp only [List.mem_range] at hi
  simp only [Bool.and_eq_true, decide_eq_true_eq, not_and, not_le]
  intro h1
  exact h i h1 hi

/-! ## Index → coordinates (`calcCoordsOptimized`, Tests/G2SStorageTest/Util.cpp:122-135)

The test helper inverts the row-major index.  Its internals are C++ `int`
arithmetic with truncating division; for the non-negative in-range values
covered by the theorems below this coincides with `Nat` arithmetic, which is
how it is embedded here. -/

/-- Loop body of `calcCoordsOptimized`: `sum` is the product of the
remaining index axes, `ix = (ind - fx) / sum`, and `fx += ix * sum`. -/
def calcCoordsAux (ind : ℕ) : ℕ → List ℕ → List ℕ
  | _, [] => []
  | fx, _ :: as =>
    let sum := as.prod
    let ix := (ind - fx) / sum
    ix :: calcCoordsAux ind (fx + ix * sum) as

/-- `calcCoordsOptimized(ind, shape)`: the result vector has `shape.size()`
entries; the loop fills the index-axis positions and the two trailing
(pixel-axis) entries keep their zero initialisation. -/
def calcCoordsOptimized (ind : ℕ) (shape : List ℕ) : List ℕ :=
  calcCoordsAux ind 0 (shape.take (shape.length - 2))
    ++ List.replicate (shape.length - (shape.length - 2)) 0

/-- All digits strictly below their axis sizes (positionwise). -/
def digitLT (as cs : List ℕ) : Bool := (cs.zip as).all fun p => decide (p.1 < p.2)

theorem linIndex_lt_prod (as : List ℕ) : ∀ cs : List ℕ, cs.length = as.length →
    digitLT as cs = true → linIndex as cs < as.prod := by
  induction as with
  | nil =>
    intro cs hlen _
    rw [List.length_nil, List.length_eq_zero] at hlen
    subst hlen
    simp [linIndex]
  | cons a as ih =>
    intro cs hlen hd
    cases cs with
    | nil => simp at hlen
    | cons c cs =>
      simp only [digitLT, List.zip_cons_cons, List.all_cons, Bool.and_eq_true,
        decide_eq_true_eq] at hd
      have htail : linIndex as cs < as.prod :=
        ih cs (by simpa using hlen) (by simp [digitLT, hd.2])
      rw [linIndex, List.prod_cons]
      calc c * as.prod + linIndex as cs < c * as.prod + as.prod := by omega
        _ = (c + 1) * as.prod := by ring
        _ ≤ a * as.prod := Nat.mul_le_mul_right _ (by omega)

theorem calcCoordsAux_recover (as : List ℕ) : ∀ cs : List ℕ,
    cs.length = as.length → digitLT as cs = true →
    ∀ ind fx, fx ≤ ind → ind - fx = linIndex as cs →
    calcCoordsAux ind fx as = cs := by
  induction as with
  | nil =>
    intro cs hlen _ ind fx _ _
    rw [List.length_nil, List.length_eq_zero] at hlen
    subst hlen
    rfl
  | cons a as ih =>
    intro cs hlen hd ind fx hfx hrem
    cases cs with
    | nil => simp at hlen
    | cons c cs =>
      simp only [digitLT, List.zip_cons_cons, List.all_cons, Bool.and_eq_true,
        decide_eq_true_eq] at hd
      have hdt : digitLT as cs = true := by simp [digitLT, hd.2]
      have hlt : linIndex as cs < as.prod :=
        linIndex_lt_prod as cs (by simpa using hlen) hdt
      have hpos : 0 < as.prod := by omega
      rw [linIndex] at hrem
      rw [calcCoordsAux]
      have hix : (ind - fx) / as.prod = c := by
        rw [hrem, Nat.mul_comm c as.prod, Nat.mul_add_div hpos,
          Nat.div_eq_of_lt hlt]
        omega
      simp only [hix]
      congr 1
      exact ih cs (by simpa using hlen) hdt ind (fx + c * as.prod)
        (by omega) (by omega)

theorem calcCoordsAux_roundtrip (as cs : List ℕ) (hlen : cs.length = as.length)
    (hd : digitLT as.tail cs.tail = true) :
    calcCoordsAux (linIndex as cs) 0 as = cs := by
  cases as with
  | nil =>
    rw [List.length_nil, List.length_eq_zero] at hlen
    subst hlen
    rfl
  | cons a as =>
    cases cs with
    | nil => simp at hlen
    | cons c cs =>
      simp only [List.tail_cons] at hd
      have hlt : linIndex as cs < as.prod :=
        linIndex_lt_prod as cs (by simpa using hlen) hd
      have hpos : 0 < as.prod := by omega
      rw [calcCoordsAux, linIndex]
      have hix : (c * as.prod + linIndex as cs - 0) / as.prod = c := by
        rw [Nat.sub_zero, Nat.mul_comm c as.prod, Nat.mul_add_div hpos,
          Nat.div_eq_of_lt hlt]
        omega
      simp only [hix]
      congr 1
      exact calcCoordsAux_recover as cs (by simpa using hlen) hd
        (c * as.prod + linIndex as cs) (0 + c * as.prod) (by omega) (by omega)

theorem digitLT_getD (as : List ℕ) : ∀ cs : List ℕ, digitLT as cs = true →
    ∀ j, j < cs.length → j < as.length → cs.getD j 0 < as.getD j 0 := by
  induction as with
  | nil => intro cs _ j _ hj; simp at hj
  | cons a as ih =>
    intro cs h j hj1 hj2
    cases cs with
    | nil => simp at hj1
    | cons c cs =>
      simp only [digitLT, List.zip_cons_cons, List.all_cons, Bool.and_eq_true,
        decide_eq_true_eq] at h
      cases j with
      | zero => simpa using h.1
      | succ j =>
        simp only [List.getD_cons_succ]
        exact ih cs (by simp [digitLT, h.2]) j (by simpa using hj1)
          (by simpa using hj2)

/-- C6 (amended).  For a shape with at least the two pixel axes, a coordinate
vector no longer than the index-axis list whose non-leading components pass
the range check, `calcImageIndex` returns the row-major linear index
`Σᵢ cᵢ·Πⱼ>ᵢ aⱼ` reduced modulo `2^32` (the `uint32_t` arithmetic of the
source); in particular it is the exact row-major index whenever that index
fits in 32 bits. -/
theorem calcImageIndex_rowMajor (shape coord : List ℕ)
    (h2 : 2 ≤ shape.length)
    (hlen : coord.length ≤ shape.length - 2)
    (hrange : rangeErrB shape coord = false) :
    calcImageIndex shape coord
      = some (specIndex (shape.take (shape.length - 2)) coord % 4294967296) := by
  have htk : coord.length ≤ (shape.take (shape.length - 2)).length := by
    rw [List.length_take]
    omega
  rw [calcImageIndex, if_neg (by omega), if_neg (by simp [hrange]),
    idxLoop_zero, linIndex_eq_specIndex _ _ htk]

/-- C6 witness: shape `[2,3,2,16,16]`, coordinate `[3,1,0]` (leading-axis
overflow allowed) maps to `3·6 + 1·2 + 0 = 20`. -/
theorem calcImageIndex_rowMajor_witness :
    calcImageIndex [2, 3, 2, 16, 16] [3, 1, 0] = some 20 := by
  have h := calcImageIndex_rowMajor [2, 3, 2, 16, 16] [3, 1, 0]
    (by norm_num) (by norm_num) (by decide)
  rw [h, ← linIndex_eq_specIndex _ _ (by decide)]
  rfl

/-- C6 counterexample: with the `uint32_t` arithmetic of the source the
result is NOT the exact row-major index once it exceeds `2^32`:
for shape `[1,3,16,16]` (index axes `[1,3]`, all positive) and the valid
coordinate `[2^31, 0]`, the code returns `2^31·3 mod 2^32 = 2147483648`,
not `2^31·3 = 6442450944` as the claim states. -/
theorem calcImageIndex_not_exact :
    calcImageIndex [1, 3, 16, 16] [2147483648, 0]
      ≠ some (specIndex [1, 3] [2147483648, 0]) := by
  have h2 : specIndex [1, 3] [2147483648, 0] = 6442450944 := by
    rw [← linIndex_eq_specIndex _ _ (by decide)]
    rfl
  rw [h2]
  decide

/-- C7 (amended).  For index axes `A`, a full-length coordinate vector `cs`
whose non-leading digits are in range, whose exact row-major index and whose
stride products stay inside the 32-bit range of the implementation
(`uint32_t` index in `calcImageIndex`, `int` strides in
`calcCoordsOptimized`), converting to a linear index and back recovers `cs`,
padded with the two zero pixel-axis slots of the result vector. -/
theorem calcCoords_calcImageIndex_roundtrip (A cs : List ℕ) (hgt wd : ℕ)
    (hlen : cs.length = A.length)
    (hd : digitLT A.tail cs.tail = true)
    (hfit : linIndex A cs < 2 ^ 31)
    (hstr : A.tail.prod < 2 ^ 31) :
    calcImageIndex (A ++ [hgt, wd]) cs = some (linIndex A cs) ∧
    calcCoordsOptimized (linIndex A cs) (A ++ [hgt, wd]) = cs ++ [0, 0] := by
  have hlen2 : (A ++ [hgt, wd]).length = A.length + 2 := by simp
  have htake : (A ++ [hgt, wd]).take ((A ++ [hgt, wd]).length - 2) = A := by
    rw [hlen2, Nat.add_sub_cancel, List.take_left]
  constructor
  · have hrange : rangeErrB (A ++ [hgt, wd]) cs = false := by
      apply rangeErrB_eq_false
      intro i h1 hi
      obtain ⟨c, cs', rfl⟩ : ∃ c cs', cs = c :: cs' := by
        cases cs with
        | nil => simp at hi
        | cons c cs' => exact ⟨c, cs', rfl⟩
      obtain ⟨a, A', rfl⟩ : ∃ a A', A = a :: A' := by
        cases A with
        | nil => simp at hlen
        | cons a A' => exact ⟨a, A', rfl⟩
      obtain ⟨j, rfl⟩ : ∃ j, i = j + 1 := ⟨i - 1, by omega⟩
      simp only [List.tail_cons] at hd
      simp only [List.length_cons] at hi hlen
      have hj : cs'.length = A'.length := by omega
      have hja : j < A'.length := by omega
      have hlt : cs'.getD j 0 < A'.getD j 0 :=
        digitLT_getD A' cs' hd j (by omega) hja
      have hgetc : (c :: cs').getD (j + 1) 0 = cs'.getD j 0 := rfl
      have hgeta : ((a :: A') ++ [hgt, wd]).getD (j + 1) 0 = A'.getD j 0 := by
        rw [List.cons_append, List.getD_cons_succ]
        exact List.getD_append A' [hgt, wd] 0 j hja
      rw [hgetc, hgeta]
      exact hlt
    rw [calcImageIndex, if_neg (by rw [hlen2]; omega), if_neg (by simp [hrange]),
      htake, idxLoop_zero, Nat.mod_eq_of_lt (lt_trans hfit (by norm_num))]
  · rw [calcCoordsOptimized, htake, hlen2, Nat.add_sub_cancel,
      Nat.add_sub_cancel_left, calcCoordsAux_roundtrip A cs hlen hd]
    rfl

/-- C7 witness: shape `[2,3,2,16,16]`, coordinate `[3,1,0]` (leading-axis
overflow): index 20, and `calcCoordsOptimized` recovers `[3,1,0]` in the
index-axis slots of its 5-entry result. -/
theorem calcCoords_calcImageIndex_roundtrip_witness :
    calcImageIndex [2, 3, 2, 16, 16] [3, 1, 0] = some 20 ∧
    calcCoordsOptimized 20 [2, 3, 2, 16, 16] = [3, 1, 0, 0, 0] := by
  have h := calcCoords_calcImageIndex_roundtrip [2, 3, 2] [3, 1, 0] 16 16
    (by decide) (by decide) (by decide) (by decide)
  have hl : linIndex [2, 3, 2] [3, 1, 0] = 20 := rfl
  rw [hl] at h
  exact h

/-- C7 counterexample, falsifying the claim as stated at two inputs:
(a) even for the trivially valid coordinate `[1]` of shape `[2,16,16]`, the
inverse returns the full-length vector `[1,0,0]`, not `[1]`;
(b) for shape `[1,3,16,16]` and the valid coordinate `[2^31,0]`, the 32-bit
index `2147483648` decodes to `[715827882,2,0,0]`: the roundtrip fails even
on the index-axis entries once the index wraps. -/
theorem calcCoords_roundtrip_counterexample :
    (calcImageIndex [2, 16, 16] [1] = some 1 ∧
      calcCoordsOptimized 1 [2, 16, 16] ≠ [1]) ∧
    (calcImageIndex [1, 3, 16, 16] [2147483648, 0] = some 2147483648 ∧
      calcCoordsOptimized 2147483648 [1, 3, 16, 16] = [715827882, 2, 0, 0] ∧
      ([715827882, 2, 0, 0] : List ℕ) ≠ [2147483648, 0] ++ [0, 0]) := by
  refine ⟨⟨by decide, by decide⟩, ⟨by decide, by decide, by decide⟩⟩

/-! ## Strip padding (`G2SBigTiffDataset::addImage`, G2SBigTiffDataset.cpp:511-518)

After committing the pixel strip of `len` bytes, `addImage` commits a padding
buffer:

```
auto alignsz = directIo ? ssize : 2;
if(len % alignsz != 0)
{
  auto padsize = len - (len / alignsz) * alignsz;
  std::vector<unsigned char> pbuff(padsize);
  commit(&pbuff[0], pbuff.size());
}
```
-/

/-- Number of padding bytes committed after a pixel strip of `len` bytes
(`ssize` is the probed device sector size, used when `directIo` is set). -/
def padSize (directIo : Bool) (ssize len : ℕ) : ℕ :=
  let alignsz := if directIo then ssize else 2
  if len % alignsz ≠ 0 then len - len / alignsz * alignsz else 0

/-- C4 evidence.  The padding amount is `len mod alignsz`, the remainder
rather than its complement: with direct I/O, sector size 4096 and a strip of
100000 bytes (the specification's own scenario) the write position advances
by `100000 + 1696 = 101696` bytes, which is not a multiple of 4096, so later
frame commits do not start sector-aligned.  In buffered mode (boundary 2)
the remainder happens to coincide with the complement, so 2-alignment does
hold there. -/
theorem padSize_misaligned :
    (padSize true 4096 100000 = 1696 ∧ (100000 + padSize true 4096 100000) % 4096 = 3392) ∧
    (∀ len : ℕ, (len + padSize false 4096 len) % 2 = 0) := by
  refine ⟨⟨by decide, by decide⟩, fun len => ?_⟩
  simp only [padSize, if_neg (Bool.false_ne_true), ite_not]
  rcases Nat.even_or_odd len with he | ho
  · rw [if_pos (Nat.even_iff.mp he), Nat.add_zero]
    exact Nat.even_iff.mp he
  · have h1 : len % 2 = 1 := Nat.odd_iff.mp ho
    rw [if_neg (by omega)]
    have h2 : len - len / 2 * 2 = 1 := by omega
    omega

/-! ## `G2SBigTiffDataset::setShape` (G2SBigTiffDataset.cpp:248-267)

The mutable dataset fields touched by `setShape`, as an explicit record.
`datachunks` is the size of the chunk list, `imgcounter` the number of
appended images.  A thrown `std::runtime_error` is `some message` and leaves
the record unchanged (the source assigns `shape` only after every throw
site); success is `none`.  The `writeShapeInfo` call patches the file header
and does not change these fields. -/

structure DSState where
  writemode : Bool
  datachunks : ℕ
  imgcounter : ℕ
  shape : List ℕ
deriving DecidableEq, Repr

def setShape (st : DSState) (dims : List ℕ) : Option String × DSState :=
  if dims.length < 2 then
    (some "Unable to set dataset shape. Invalid shape info", st)
  else if !st.writemode then
    (some "Unable to set dataset shape in read mode", st)
  else if 1 < st.datachunks then
    (some "Unable to set dataset shape. Dataset configuration is already set", st)
  else if 0 < st.imgcounter ∧ 2 ≤ st.shape.length then
    if dims.length ≠ st.shape.length then
      (some "Unable to set dataset shape. Invalid axis count", st)
    else if dims.getD (dims.length - 2) 0 ≠ st.shape.getD (st.shape.length - 2) 0
        ∨ dims.getD (dims.length - 1) 0 ≠ st.shape.getD (st.shape.length - 1) 0 then
      (some "Unable to set dataset shape. Image dimensions mismatch", st)
    else (none, st)
  else (none, { st with shape := dims })

/-- The compatibility test `setShape` applies once an image exists: same axis
count and the same two trailing (height, width) entries. -/
def shapeCompat (old dims : List ℕ) : Prop :=
  dims.length = old.length ∧
  dims.getD (dims.length - 2) 0 = old.getD (old.length - 2) 0 ∧
  dims.getD (dims.length - 1) 0 = old.getD (old.length - 1) 0

instance (old dims : List ℕ) : Decidable (shapeCompat old dims) := by
  unfold shapeCompat
  infer_instance

/-- C9 counterexample.  After the first image (`imgcounter = 1`), `setShape`
with `[5,3,16,16]` against the stored shape `[2,3,16,16]` SUCCEEDS (returns
without error, as a no-op), although the new shape differs from the stored
one: the code only compares the axis count and the two trailing pixel axes,
not the whole shape, refuting the claim that success after the first image
requires the new shape to equal the existing shape. -/
theorem setShape_counterexample :
    setShape ⟨true, 1, 1, [2, 3, 16, 16]⟩ [5, 3, 16, 16]
        = (none, ⟨true, 1, 1, [2, 3, 16, 16]⟩) ∧
    ([5, 3, 16, 16] : List ℕ) ≠ [2, 3, 16, 16] ∧ (1 : ℕ) ≠ 0 := by
  refine ⟨by decide, by decide, by decide⟩

/-- C9 (amended).  Under the dataset invariant that a stored image implies a
stored shape (`addImage` requires `shape.size() >= 2` before incrementing
`imgcounter`): `setShape` succeeds only in write mode and only when either
no image has been added yet, or the new shape agrees with the existing one
in axis count and in the two trailing (height, width) axes — in the latter
case the stored shape is left unchanged; every call outside these conditions
fails with an error and leaves the whole state unchanged. -/
theorem setShape_legal (st : DSState) (dims : List ℕ)
    (hinv : 0 < st.imgcounter → 2 ≤ st.shape.length) :
    ((setShape st dims).1 = none →
      st.writemode = true ∧ (st.imgcounter = 0 ∨ shapeCompat st.shape dims)) ∧
    ((setShape st dims).1 = none → 0 < st.imgcounter →
      (setShape st dims).2 = st) ∧
    (¬(st.writemode = true ∧ (st.imgcounter = 0 ∨ shapeCompat st.shape dims)) →
      (setShape st dims).1 ≠ none ∧ (setShape st dims).2 = st) := by
  unfold setShape shapeCompat
  rcases st with ⟨wm, dc, ic, sh⟩
  simp only at hinv ⊢
  split_ifs with h1 h2 h3 h4 h5 h6
  · exact ⟨by simp, by simp, fun _ => ⟨by simp, rfl⟩⟩
  · exact ⟨by simp, by simp, fun _ => ⟨by simp, rfl⟩⟩
  · exact ⟨by simp, by simp, fun _ => ⟨by simp, rfl⟩⟩
  · exact ⟨by simp, by simp, fun _ => ⟨by simp, rfl⟩⟩
  · exact ⟨by simp, by simp, fun _ => ⟨by simp, rfl⟩⟩
  · -- success after the first image: compatibility established by h5, h6
    have hwm : wm = true := by simpa using h2
    push_neg at h5 h6
    have hcond : wm = true ∧ (ic = 0 ∨
        dims.length = sh.length ∧
        dims.getD (dims.length - 2) 0 = sh.getD (sh.length - 2) 0 ∧
        dims.getD (dims.length - 1) 0 = sh.getD (sh.length - 1) 0) :=
      ⟨hwm, Or.inr ⟨h5, h6.1, h6.2⟩⟩
    exact ⟨fun _ => hcond, fun _ _ => rfl, fun hc => absurd hcond hc⟩
  · -- success before the first image: hinv forces imgcounter = 0
    have hwm : wm = true := by simpa using h2
    have hic : ic = 0 := by
      by_contra hne
      exact h4 ⟨Nat.pos_of_ne_zero hne, hinv (Nat.pos_of_ne_zero hne)⟩
    exact ⟨fun _ => ⟨hwm, Or.inl hic⟩, fun _ h0 => by omega,
      fun hc => absurd ⟨hwm, Or.inl hic⟩ hc⟩

/-- C9 witness: a write-mode dataset with no images accepts a new shape, and
the same state with one image rejects a shape whose trailing axes differ. -/
theorem setShape_legal_witness :
    setShape ⟨true, 1, 0, []⟩ [4, 8, 8] = (none, ⟨true, 1, 0, [4, 8, 8]⟩) ∧
    (setShape ⟨true, 1, 3, [2, 8, 8]⟩ [2, 8, 9]).1 ≠ none := by
  constructor
  · decide
  · have h := setShape_legal ⟨true, 1, 3, [2, 8, 8]⟩ [2, 8, 9] (by intro; decide)
    exact (h.2.2 (by decide)).1

/-! ## The storage service (`G2SBigTiffStorage.cpp`)

The service keeps `std::map<std::string, G2SStorageEntry> cache`, mapping the
UUID handle to a descriptor.  A descriptor is embedded together with the
facts it exposes through its `G2STiffFile` handle (dimension count and shape
as consulted by `AddImage`); the map is an association list looked up by key
equality, insertion appends and fails when the key is present, exactly as
`std::map::insert`.  C++ status codes become the `MMStatus` constructors,
`nullptr` results become `none`.  Caller-side buffer/pointer validity is
passed in as explicit `...Null` flags, and filesystem outcomes
(`exists`/open success) as explicit flags, since they are external to the
service logic under verification. -/

inductive MMStatus where
  | ok
  | invalidInputParam
  | outOfMemory
  | duplicateProperty
  | invalidPropertyLimits
  | sequenceTooLarge
deriving DecidableEq, Repr

/-- One cache descriptor (`G2SStorageEntry` plus the `G2STiffFile` facts the
service reads from it): `isOpen` is `G2SStorageEntry::isOpen()`, `meta` the
`Metadata` string, `dim` is `fs->getDimension()`, `fshape` is
`fs->getShape()` (the axis-size vector indexed from position 2 by the
coordinate checks of `AddImage`), `imageIndex`/`imageMetadata` the image
caches used by `GetImageMeta`. -/
structure SEntry where
  isOpen : Bool
  meta : String
  dim : ℤ
  fshape : List ℤ
  imageIndex : List (String × ℕ)
  imageMetadata : List String
deriving DecidableEq, Repr

abbrev SvcCache := List (String × SEntry)

def lookupE (cache : SvcCache) (h : String) : Option SEntry :=
  (cache.find? fun p => p.1 == h).map Prod.snd

/-- `std::map::insert`: no effect and failure flag when the key exists. -/
def cacheInsert (cache : SvcCache) (g : String) (e : SEntry) : SvcCache × Bool :=
  if (lookupE cache g).isSome then (cache, false) else (cache ++ [(g, e)], true)

/-- `G2SBigTiffStorage::cacheReduce` (G2SBigTiffStorage.cpp:573-582): erase
every descriptor that is not open. -/
def cacheReduce (cache : SvcCache) : SvcCache := cache.filter fun p => p.2.isOpen

/-- `G2SBigTiffStorage::Create` (G2SBigTiffStorage.cpp:121-181).
`maxCache`/`hardLimit` are the `MAX_CACHE_SIZE`/`CACHE_HARD_LIMIT` policy
constants of the (header-only) configuration; `fileExists`, `guidTooLong`
and `openOk` report the filesystem/UUID outcomes of the corresponding
source steps, in source order. -/
def createSvc (maxCache : ℕ) (hardLimit : Bool) (cache : SvcCache)
    (pathNull : Bool) (numberOfDimensions : ℤ) (fileExists : Bool)
    (guid : String) (guidTooLong : Bool) (openOk : Bool)
    (e : SEntry) : MMStatus × SvcCache :=
  let step := fun (c : SvcCache) =>
    if fileExists then (MMStatus.duplicateProperty, c)
    else if guidTooLong then (MMStatus.invalidPropertyLimits, c)
    else if !openOk then (MMStatus.outOfMemory, c)
    else match cacheInsert c guid e with
      | (c2, true) => (MMStatus.ok, c2)
      | (c2, false) => (MMStatus.outOfMemory, c2)
  if pathNull || decide (numberOfDimensions ≤ 0) then (.invalidInputParam, cache)
  else if maxCache ≤ cache.length then
    let c1 := cacheReduce cache
    if hardLimit && decide (maxCache ≤ c1.length) then (.outOfMemory, c1)
    else step c1
  else step cache

/-- `G2SBigTiffStorage::Load` (G2SBigTiffStorage.cpp:193-242).  Note: unlike
`Create`, the source performs no cache-size admission check here. -/
def loadSvc (cache : SvcCache) (pathNull fileExists openOk guidTooLong : Bool)
    (guid : String) (e : SEntry) : MMStatus × SvcCache :=
  if pathNull then (.invalidInputParam, cache)
  else if !fileExists then (.invalidInputParam, cache)
  else if !openOk then (.outOfMemory, cache)
  else if guidTooLong then (.invalidPropertyLimits, cache)
  else match cacheInsert cache guid e with
    | (c2, true) => (MMStatus.ok, c2)
    | (c2, false) => (MMStatus.outOfMemory, c2)

/-- `G2SBigTiffStorage::Close` (G2SBigTiffStorage.cpp:267-280): resolve the
handle; if the descriptor is open, close and release the file handle (the
descriptor stays in the cache with `isOpen` cleared); always `DEVICE_OK`
when the handle resolves. -/
def closeEntry (handle : String) (p : String × SEntry) : String × SEntry :=
  if p.1 == handle then (p.1, { p.2 with isOpen := false }) else p

def closeSvc (cache : SvcCache) (handle : String) : MMStatus × SvcCache :=
  match lookupE cache handle with
  | none => (.invalidInputParam, cache)
  | some e =>
    if e.isOpen then (.ok, cache.map (closeEntry handle))
    else (.ok, cache)

/-- `G2SBigTiffStorage::GetSummaryMeta` (G2SBigTiffStorage.cpp:391-404). -/
def getSummaryMetaSvc (cache : SvcCache) (handleNull metaNull : Bool)
    (bufSize : ℤ) (handle : String) : MMStatus :=
  if handleNull || metaNull || decide (bufSize ≤ 0) then .invalidInputParam
  else match lookupE cache handle with
    | none => .invalidInputParam
    | some e =>
      if decide (bufSize < (e.meta.length : ℤ)) then .sequenceTooLarge
      else .ok

/-- C5 counterexample.  `Load` performs no cache admission at all: with a
one-entry cache of open descriptors already at the limit (`MAX_CACHE_SIZE`
= 1, hard limit on), a `Load` of a fresh dataset still succeeds and grows
the map past the limit, where the claim requires an out-of-resources
failure. -/
theorem load_cache_counterexample :
    loadSvc [("a", ⟨true, "", 2, [], [], []⟩)] false true true false "b"
        ⟨true, "", 2, [], [], []⟩
      = (.ok, [("a", ⟨true, "", 2, [], [], []⟩), ("b", ⟨true, "", 2, [], [], []⟩)]) ∧
    (1 : ℕ) ≤ ([("a", (⟨true, "", 2, [], [], []⟩ : SEntry))] : SvcCache).length ∧
    cacheReduce [("a", ⟨true, "", 2, [], [], []⟩)]
      = [("a", ⟨true, "", 2, [], [], []⟩)] := by
  refine ⟨by decide, by decide, by decide⟩

/-- C5 (amended).  The cache admission protocol of the claim — on a full
map, first evict all closed descriptors, then fail with out-of-resources
when the hard limit is set and the map is still full — is implemented by
`Create` only; `Load` inserts a descriptor with no cache-size check. -/
theorem cache_admission (maxCache : ℕ) (cache : SvcCache) (g : String)
    (e : SEntry) (nd : ℤ) (hnd : 0 < nd)
    (hfull : maxCache ≤ cache.length)
    (hstill : maxCache ≤ (cacheReduce cache).length)
    (hfresh : lookupE cache g = none) :
    createSvc maxCache true cache false nd false g false true e
        = (.outOfMemory, cacheReduce cache) ∧
    loadSvc cache false true true false g e = (.ok, cache ++ [(g, e)]) := by
  constructor
  · rw [createSvc]
    rw [if_neg (by simp; omega), if_pos hfull, if_pos (by simp [hstill])]
  · rw [loadSvc]
    simp only [Bool.not_true, Bool.false_eq_true, if_false, cacheInsert,
      hfresh, Option.isSome_none]

/-- C5 witness: with `MAX_CACHE_SIZE = 1`, a full cache holding one open
descriptor survives `cacheReduce`, so `Create` fails out-of-memory under the
hard limit while `Load` succeeds and inserts. -/
theorem cache_admission_witness :
    createSvc 1 true [("a", ⟨true, "m", 2, [], [], []⟩)] false 4 false "b" false true
        ⟨true, "", 2, [], [], []⟩
      = (.outOfMemory, [("a", ⟨true, "m", 2, [], [], []⟩)]) ∧
    loadSvc [("a", ⟨true, "m", 2, [], [], []⟩)] false true true false "b"
        ⟨true, "", 2, [], [], []⟩
      = (.ok, [("a", ⟨true, "m", 2, [], [], []⟩), ("b", ⟨true, "", 2, [], [], []⟩)]) := by
  have h := cache_admission 1 [("a", ⟨true, "m", 2, [], [], []⟩)] "b"
    ⟨true, "", 2, [], [], []⟩ 4 (by norm_num) (by decide) (by decide) (by decide)
  exact ⟨h.1, h.2⟩

theorem lookupE_map_close (cache : SvcCache) (h : String) (e : SEntry)
    (hl : lookupE cache h = some e) :
    lookupE (cache.map (closeEntry h)) h = some { e with isOpen := false } := by
  induction cache with
  | nil => simp [lookupE] at hl
  | cons q rest ih =>
    rcases q with ⟨k, e0⟩
    cases hk : (k == h) with
    | true =>
      simp only [lookupE, List.find?, List.map_cons, closeEntry, hk,
        if_true] at hl ⊢
      simp only [Option.map_some'] at hl ⊢
      simp only [Option.some.injEq] at hl
      rw [hl]
    | false =>
      simp only [lookupE, List.find?, List.map_cons, closeEntry, hk, if_false,
        Bool.false_eq_true, if_neg (Bool.false_ne_true)] at hl ⊢
      exact ih hl

/-- C8.  A successful `Close` keeps the descriptor in the map (so
`GetSummaryMeta` still resolves the handle), and a second `Close` on the
same handle returns `DEVICE_OK` without changing the cache. -/
theorem close_persists_idempotent (cache : SvcCache) (h : String)
    (c' : SvcCache) (hclose : closeSvc cache h = (.ok, c')) :
    (lookupE c' h).isSome = true ∧
    closeSvc c' h = (.ok, c') ∧
    ∀ bufSize : ℤ, 0 < bufSize →
      getSummaryMetaSvc c' false false bufSize h ≠ .invalidInputParam := by
  cases hl : lookupE cache h with
  | none =>
    simp only [closeSvc, hl] at hclose
    exact absurd hclose (by simp)
  | some e =>
    simp only [closeSvc, hl] at hclose
    by_cases hop : e.isOpen = true
    · rw [if_pos hop] at hclose
      have hc : cache.map (closeEntry h) = c' := congrArg Prod.snd hclose
      subst hc
      have hl2 := lookupE_map_close cache h e hl
      refine ⟨by simp [hl2], ?_, ?_⟩
      · simp [closeSvc, hl2]
      · intro bufSize hb
        simp only [getSummaryMetaSvc, hl2]
        rw [if_neg (by simp; omega)]
        split_ifs <;> simp
    · rw [if_neg hop] at hclose
      have hc : cache = c' := congrArg Prod.snd hclose
      subst hc
      refine ⟨by simp [hl], ?_, ?_⟩
      · simp only [closeSvc, hl]
        rw [if_neg hop]
      · intro bufSize hb
        simp only [getSummaryMetaSvc, hl]
        rw [if_neg (by simp; omega)]
        split_ifs <;> simp

/-- C8 witness: close an open one-entry cache, re-query and re-close it. -/
theorem close_persists_idempotent_witness :
    closeSvc [("h", ⟨true, "m", 2, [], [], []⟩)] "h"
      = (.ok, [("h", ⟨false, "m", 2, [], [], []⟩)]) ∧
    (lookupE [("h", (⟨false, "m", 2, [], [], []⟩ : SEntry))] "h").isSome = true ∧
    closeSvc [("h", ⟨false, "m", 2, [], [], []⟩)] "h"
      = (.ok, [("h", ⟨false, "m", 2, [], [], []⟩)]) ∧
    getSummaryMetaSvc [("h", ⟨false, "m", 2, [], [], []⟩)] false false 100 "h"
      ≠ .invalidInputParam := by
  have h1 : closeSvc [("h", ⟨true, "m", 2, [], [], []⟩)] "h"
      = (.ok, [("h", ⟨false, "m", 2, [], [], []⟩)]) := by decide
  have h2 := close_persists_idempotent _ "h" _ h1
  exact ⟨h1, h2.1, h2.2.1, h2.2.2 100 (by norm_num)⟩

/-! ## Image operations of the service

All three of `AddImage`, `GetImageMeta` and `GetImage` guard their
coordinate arguments with
`sizeof(coordinates) != numCoordinates * sizeof(int)`.  `coordinates` is an
`int[]` function parameter, which in C++ decays to `int*`, so on an LP64
platform `sizeof(coordinates)` is the pointer size 8 while `sizeof(int)` is
4: the guard admits exactly `numCoordinates == 2`. -/

def sizeofIntPtr : ℤ := 8

def sizeofInt : ℤ := 4

/-- `G2SBigTiffStorage::getImageKey` (G2SBigTiffStorage.cpp:648-654):
underscore-joined decimal coordinates. -/
def getImageKey (coords : List ℤ) (n : ℤ) : String :=
  (List.range n.toNat).foldl
    (fun s i => s ++ (if i == 0 then "" else "_") ++ toString (coords.getD i 0)) ""

/-- The per-coordinate validation loop of `AddImage`
(`coordinates[i] < 0 || coordinates[i] >= (int)fs->getShape()[i + 2]`),
note the `i + 2` offset into the shape vector and that the loop starts at
`i = 0`: the leading axis is range-checked like every other axis. -/
def coordRangeErr (fshape coords : List ℤ) (n : ℤ) : Bool :=
  (List.range n.toNat).any fun i =>
    decide (coords.getD i 0 < 0) || decide (fshape.getD (i + 2) 0 ≤ coords.getD i 0)

/-- `G2SBigTiffStorage::AddImage` (G2SBigTiffStorage.cpp:354-380).  The
status-determining logic: argument guard, cache lookup, dimension-count
check, coordinate range check, then the append.  The pixel-format side call
and the dataset append itself (which mutate the dataset, not the service
cache) are abstracted to the `ok` result. -/
def addImageSvc (cache : SvcCache) (handleNull pixelsNull : Bool)
    (handle : String) (sizeInBytes : ℤ) (coords : List ℤ)
    (numCoordinates : ℤ) : MMStatus :=
  if handleNull || pixelsNull || decide (sizeInBytes ≤ 0)
      || decide (numCoordinates ≤ 0)
      || decide (sizeofIntPtr ≠ numCoordinates * sizeofInt) then
    .invalidInputParam
  else match lookupE cache handle with
    | none => .invalidInputParam
    | some e =>
      if decide (numCoordinates ≠ e.dim) then .invalidInputParam
      else if coordRangeErr e.fshape coords numCoordinates then .invalidInputParam
      else .ok

/-- `G2SBigTiffStorage::GetImage` (G2SBigTiffStorage.cpp:447-459).  After
the argument guard and the cache lookup the body is
`// TODO:  return nullptr;` — the read path is not implemented and every
call returns the null pointer (`none`). -/
def getImageSvc (cache : SvcCache) (handleNull : Bool) (handle : String)
    (coords : List ℤ) (numCoordinates : ℤ) : Option (List ℕ) :=
  if handleNull || decide (numCoordinates ≤ 0)
      || decide (sizeofIntPtr ≠ numCoordinates * sizeofInt) then none
  else match lookupE cache handle with
    | none => none
    | some _ => none

/-- `G2SBigTiffStorage::GetImageMeta` (G2SBigTiffStorage.cpp:417-436). -/
def getImageMetaSvc (cache : SvcCache) (handleNull coordsNull metaNull : Bool)
    (handle : String) (coords : List ℤ) (numCoordinates : ℤ)
    (bufSize : ℤ) : MMStatus :=
  if handleNull || coordsNull || decide (numCoordinates = 0) || metaNull
      || decide (bufSize ≤ 0)
      || decide (sizeofIntPtr ≠ numCoordinates * sizeofInt) then
    .invalidInputParam
  else match lookupE cache handle with
    | none => .invalidInputParam
    | some e =>
      match e.imageIndex.find? fun p => p.1 == getImageKey coords numCoordinates with
      | none => .invalidInputParam
      | some pr =>
        if decide (e.imageMetadata.length ≤ pr.2) then .invalidInputParam
        else .ok

/-- C1 evidence.  The service-level `GetImage` is an unimplemented stub: it
returns the null pixel buffer for every cache state, handle and coordinate
vector, so no `GetImage` call can return the bytes passed to `AddImage`. -/
theorem getImageSvc_always_none (cache : SvcCache) (handleNull : Bool)
    (handle : String) (coords : List ℤ) (numCoordinates : ℤ) :
    getImageSvc cache handleNull handle coords numCoordinates = none := by
  rw [getImageSvc]
  split_ifs
  · rfl
  · cases lookupE cache handle <;> rfl

/-- C2 evidence, at the concrete descriptor with axis sizes
`getShape() = [16, 16, 2, 3]` (index axes 2 and 3 at positions 2 and 3):
the coordinate `[3, 0]` — leading component 3 beyond its declared size 2,
second component in range — is rejected with `DEVICE_INVALID_INPUT_PARAM`
instead of being accepted; the in-range `[1, 0]` is accepted, and `[0, 5]`
(second component out of range) is rejected, showing the rejection of
`[3, 0]` is exactly the leading-axis check. -/
theorem addImage_leading_overflow_rejected :
    addImageSvc [("h", ⟨true, "", 2, [16, 16, 2, 3], [], []⟩)] false false
        "h" 512 [3, 0] 2 = .invalidInputParam ∧
    addImageSvc [("h", ⟨true, "", 2, [16, 16, 2, 3], [], []⟩)] false false
        "h" 512 [1, 0] 2 = .ok ∧
    addImageSvc [("h", ⟨true, "", 2, [16, 16, 2, 3], [], []⟩)] false false
        "h" 512 [0, 5] 2 = .invalidInputParam := by
  refine ⟨by decide, by decide, by decide⟩

/-- C10.  On an LP64 platform the `sizeof(coordinates)` guard compares the
pointer size 8 against `numCoordinates * 4`, so every `AddImage`,
`GetImageMeta` or `GetImage` call with a coordinate count other than 2 is
rejected as an invalid parameter (null buffer for `GetImage`), for every
cache state — i.e. before any dataset state is consulted or touched. -/
theorem coordinate_count_guard (cache : SvcCache) (handle : String)
    (coords : List ℤ) (numCoordinates sizeInBytes bufSize : ℤ)
    (hn : numCoordinates ≠ 2) :
    addImageSvc cache false false handle sizeInBytes coords numCoordinates
        = .invalidInputParam ∧
    getImageMetaSvc cache false false false handle coords numCoordinates bufSize
        = .invalidInputParam ∧
    getImageSvc cache false handle coords numCoordinates = none := by
  have h8 : sizeofIntPtr ≠ numCoordinates * sizeofInt := by
    rw [sizeofIntPtr, sizeofInt]
    omega
  refine ⟨?_, ?_, ?_⟩
  · rw [addImageSvc, if_pos (by simp [h8])]
  · rw [getImageMetaSvc, if_pos (by simp [h8])]
  · rw [getImageSvc, if_pos (by simp [h8])]

/-- C10 witness: a three-coordinate call against a populated cache is
rejected by all three operations. -/
theorem coordinate_count_guard_witness :
    addImageSvc [("h", ⟨true, "", 3, [16, 16, 2, 3, 4], [], []⟩)] false false
        "h" 512 [0, 0, 0] 3 = .invalidInputParam ∧
    getImageMetaSvc [("h", ⟨true, "", 3, [16, 16, 2, 3, 4], [], []⟩)] false
        false false "h" [0, 0, 0] 3 64 = .invalidInputParam ∧
    getImageSvc [("h", ⟨true, "", 3, [16, 16, 2, 3, 4], [], []⟩)] false
        "h" [0, 0, 0] 3 = none :=
  coordinate_count_guard [("h", ⟨true, "", 3, [16, 16, 2, 3, 4], [], []⟩)]
    "h" [0, 0, 0] 3 512 64 (by norm_num)

/-! ## Directory scan (`G2SBigTiffStorage::scanDir` / `List`,
G2SBigTiffStorage.cpp:593-640 and 332-341)

A directory tree is a list of named entries. -/

inductive FSEntry where
  | file (name : String)
  | dir (name : String) (entries : List FSEntry)

/-- `supportedFormats` member initialised in the constructor
(G2SBigTiffStorage.cpp:40). -/
def supportedFormats : List String := ["tif", "tiff", "tf8"]

/-- Characters after the last dot of the tail, if any. -/
def lastDotSplit : List Char → Option (List Char)
  | [] => none
  | c :: cs =>
    match lastDotSplit cs with
    | some r => some r
    | none => if c == '.' then some cs else none

/-- `std::filesystem::path::extension()` followed by the source's removal of
the leading dot: the characters after the last dot of the filename (a dot in
first position yields no extension, matching `extension()` on dot-files). -/
def fileExt (name : String) : String :=
  match name.toList with
  | [] => ""
  | _ :: cs =>
    match lastDotSplit cs with
    | some r => String.mk r
    | none => ""

/-- The `std::transform(..., tolower)` of the source. -/
def toLowerStr (s : String) : String := String.mk (s.toList.map Char.toLower)

/-- The extension filter of `scanDir`: skip when the extension is empty or
its lowercase form is not a supported format. -/
def isSupportedFile (fname : String) : Bool :=
  let fext := fileExt fname
  if fext.length == 0 then false
  else supportedFormats.contains (toLowerStr fext)

/-- `G2SBigTiffStorage::scanDir` (G2SBigTiffStorage.cpp:593-640), returning
the dataset paths written to `listOfDatasets` from position `cpos` on, and
the all-found flag.  Faithful to the source's control flow: on the first
subdirectory entry the function RETURNS the recursive scan of that
subdirectory (`return scanDir(abspath, ...)`), abandoning the remaining
entries of the current directory. -/
def scanDir (pfx : String) (es : List FSEntry) (maxItems cpos : ℕ) :
    List String × Bool :=
  match es with
  | [] => ([], true)
  | FSEntry.dir name sub :: rest =>
      if name == "." || name == ".." then scanDir pfx rest maxItems cpos
      else scanDir (pfx ++ "/" ++ name) sub maxItems cpos
  | FSEntry.file name :: rest =>
      if name == "." || name == ".." then scanDir pfx rest maxItems cpos
      else if isSupportedFile name then
        if maxItems ≤ cpos then ([], false)
        else
          let r := scanDir pfx rest maxItems (cpos + 1)
          ((pfx ++ "/" ++ name) :: r.1, r.2)
      else scanDir pfx rest maxItems cpos
termination_by sizeOf es
decreasing_by all_goals (simp_wf; try omega)

/-- `G2SBigTiffStorage::List` (G2SBigTiffStorage.cpp:332-341): argument
guard, then `scanDir(path, ..., 0)`; `DEVICE_OK` when the buffer held
everything, `DEVICE_SEQUENCE_TOO_LARGE` otherwise.  `pathBad` stands for a
null/non-existent/non-directory path. -/
def listSvc (pathBad : Bool) (entries : List FSEntry) (path : String)
    (maxItems maxItemLength : ℤ) : MMStatus × List String :=
  if pathBad || decide (maxItems ≤ 0) || decide (maxItemLength ≤ 0) then
    (.invalidInputParam, [])
  else
    let r := scanDir path entries maxItems.toNat 0
    (if r.2 then .ok else .sequenceTooLarge, r.1)

/-- The directory of the specification's List scenario:
`a.g2s/a.g2s.tif`, `b.g2s/b.g2s.tif`, `c.txt`, `notes/`. -/
def c3dir : List FSEntry :=
  [FSEntry.dir "a.g2s" [FSEntry.file "a.g2s.tif"],
   FSEntry.dir "b.g2s" [FSEntry.file "b.g2s.tif"],
   FSEntry.file "c.txt",
   FSEntry.dir "notes" []]

/-- C3 evidence.  On the scenario directory, `List` recurses into the first
subdirectory it meets and returns from there, never reaching `b.g2s`: the
result is the single chunk-file path inside `a.g2s`, not the two dataset
paths of the claim.  (Every other iteration order of the same directory also
returns at the first subdirectory, so no order yields two paths.) -/
theorem list_scan_single_path :
    listSvc false c3dir "root" 1000 255
      = (.ok, ["root/a.g2s/a.g2s.tif"]) ∧
    (["root/a.g2s/a.g2s.tif"] : List String).length ≠ 2 := by
  refine ⟨?_, by decide⟩
  have h : scanDir "root" c3dir 1000 0 = (["root/a.g2s/a.g2s.tif"], true) := by
    simp +decide [scanDir, c3dir, isSupportedFile, fileExt, lastDotSplit,
      toLowerStr, supportedFormats]
  rw [listSvc, if_neg (by decide)]
  simp [h]

end G2S
